import Mathlib

deriving instance DecidableEq for Except

/-!
Verification of the Storage App repository (MQTT to TimescaleDB gateway).

The development shallowly embeds:
  * the `sensor_readings` table of `timescaledb/init/01_init_hypertable.sql`
    (columns, `CHECK` constraint on `quality`, `DEFAULT` on `metadata`,
    absence of any uniqueness constraint);
  * the dashboard read/export/delete API routes of
    `frontend/src/app/api/{monitoring,export,data/points}/route.ts`
    (latest-per-point listing with pagination, CSV/JSON export with the
    100000-row cap, delete preview and execution);
  * the message translator of `telegraf/mqtt_to_timescaledb.py`, which is not
    part of the available sources and is therefore modelled from the spec.

Timestamps and SQL `DOUBLE PRECISION` values are modelled as `Rat` (the claims
only ever store and compare them).  JSON scalars are modelled by `JVal`;
nested structures are not needed by any claim and are omitted from the value
grammar.  Number-to-text rendering (`String(v)`, `toISOString`) is abstracted
by `toString` on `Rat`: the claims never depend on the exact decimal spelling.
-/

namespace StorageApp

/-- Scalar JSON value, as carried in an MQTT payload field and in the JSONB
`metadata` bag. -/
inductive JVal where
  | str (s : String)
  | num (q : Rat)
  | boolean (b : Bool)
  | null
deriving DecidableEq, Repr

/-- Lexicographic order on character lists, comparing code points: the order
used by JavaScript `Array.prototype.sort()` on strings (UTF-16 unit order,
which agrees with code-point order on all claims-relevant strings) and by the
`ORDER BY` collation model. -/
def charListLE : List Char → List Char → Bool
  | [], _ => true
  | _ :: _, [] => false
  | c1 :: cs1, c2 :: cs2 =>
      if c1 = c2 then charListLE cs1 cs2 else decide (c1 < c2)

/-- The string order induced by `charListLE`. -/
def strLE (a b : String) : Prop := charListLE a.data b.data = true

instance : DecidableRel strLE := fun a b => by
  unfold strLE; exact inferInstance

/-- JavaScript `String(v)` on a scalar, used by the CSV export when flattening
metadata values (number rendering abstracted by `Rat.toString`). -/
def jvalToString : JVal → String
  | .str s => s
  | .num q => toString q
  | .boolean b => if b then "true" else "false"
  | .null => "null"

/-- One row of the `sensor_readings` hypertable
(`timescaledb/init/01_init_hypertable.sql`, lines 9-22).  `metadata = none`
models SQL `NULL` in the JSONB column; `some bag` models a JSONB object. -/
structure Row where
  time : Rat
  haystack_name : Option String
  dis : Option String
  value : Option Rat
  units : Option String
  quality : Option String
  metadata : Option (List (String × JVal))
deriving DecidableEq, Repr

/-- The enumerated quality set of the `CHECK` constraint
(`quality IN ('good', 'uncertain', 'bad')`). -/
def qualityAllowed : List String := ["good", "uncertain", "bad"]

/-- SQL three-valued semantics of the `CHECK (quality IN (...))` constraint:
a `NULL` quality passes (the check is not false), any other token must be a
member of the enumerated set. -/
def qualityCheckOk : Option String → Bool
  | none => true
  | some q => qualityAllowed.contains q

/-- The `DEFAULT '{}'::jsonb` of the `metadata` column: an empty object, not
SQL `NULL`. -/
def metadataDefault : Option (List (String × JVal)) := some []

/-- An `INSERT` into `sensor_readings`.  The table declares no primary key and
no unique constraint, so the only write-time gate is the `CHECK` constraint on
`quality`; a passing row is appended. -/
def insertRow (tbl : List Row) (r : Row) : Except String (List Row) :=
  if qualityCheckOk r.quality then .ok (tbl ++ [r])
  else .error "violates check constraint sensor_readings_quality_check"

/-! ### Message translator (modelled from the spec)

`telegraf/mqtt_to_timescaledb.py` is not among the available sources; the
translator below is modelled from spec section 4.4 ("Message Translator")
and Scenario C: the decoded payload is an attribute/value object, the keys
`haystack_name`, `dis`, `value`, `units`, `quality`, `time` map to fixed
columns by exact name, a numeric-looking string in `value` is parsed as a
number while a non-numeric `value` is a translation failure, an out-of-set
`quality` token is preserved as-is, every remaining pair goes verbatim into
the metadata bag, and an explicit `time` is used while a payload without one
is stamped with the arrival time. -/

/-- Translation failures (spec section 4.4 / section 7). -/
inductive TranslateError where
  | malformedPayload
  | nonNumericValue
deriving DecidableEq, Repr

/-- Payload keys consumed by fixed columns (exact name match). -/
def fixedKeys : List String := ["haystack_name", "dis", "value", "units", "quality", "time"]

/-- First binding of key `k` in a decoded payload object. -/
def lookupKey (p : List (String × JVal)) (k : String) : Option JVal :=
  (p.find? (fun kv => kv.1 == k)).map (fun kv => kv.2)

/-- Digits of a decimal literal as a natural number; `none` if empty or if a
non-digit occurs. -/
def parseDigits (cs : List Char) : Option Nat :=
  if cs ≠ [] ∧ cs.all Char.isDigit then
    some (cs.foldl (fun n c => 10 * n + (c.toNat - 48)) 0)
  else none

/-- Modelled from the spec: "numeric-looking strings are parsed as floating
point".  Accepts an optional leading minus sign, an integer part and an
optional fractional part. -/
def parseDecimal (s : String) : Option Rat :=
  let signed : Rat × List Char :=
    match s.data with
    | '-' :: rest => (-1, rest)
    | cs => (1, cs)
  match (List.splitOn '.' signed.2).map parseDigits with
  | [some n] => some (signed.1 * n)
  | [some n, some f] =>
      some (signed.1 * ((n : Rat) + (f : Rat) / ((10 : Rat) ^ (List.splitOn '.' signed.2)[1]!.length)))
  | _ => none

/-- The fixed `value` column (numeric-only): a payload number is taken as-is,
a numeric-looking string is parsed, a missing or JSON-null `value` yields a
SQL `NULL`, anything else is a translation failure. -/
def payloadValue (p : List (String × JVal)) : Except TranslateError (Option Rat) :=
  match lookupKey p "value" with
  | none => .ok none
  | some .null => .ok none
  | some (.num q) => .ok (some q)
  | some (.str s) =>
      match parseDecimal s with
      | some q => .ok (some q)
      | none => .error .nonNumericValue
  | some _ => .error .nonNumericValue

/-- A textual fixed column (`haystack_name`, `dis`, `units`, `quality`): the
payload string is taken verbatim, a missing key yields SQL `NULL`. -/
def strField (p : List (String × JVal)) (k : String) : Option String :=
  match lookupKey p k with
  | some (.str s) => some s
  | _ => none

/-- The explicit timestamp of a payload, when it carries a numeric `time`. -/
def explicitTime (p : List (String × JVal)) : Option Rat :=
  match lookupKey p "time" with
  | some (.num q) => some q
  | _ => none

/-- Modelled from the spec: the Message Translator.  `none` stands for a
payload that failed structured decoding (`MalformedPayloadError`); `arrival`
is the arrival timestamp used when the payload has no explicit `time`. -/
def translate (payload : Option (List (String × JVal))) (arrival : Rat) :
    Except TranslateError Row :=
  match payload with
  | none => .error .malformedPayload
  | some p =>
      match payloadValue p with
      | .error e => .error e
      | .ok v =>
          .ok { time := (explicitTime p).getD arrival
                haystack_name := strField p "haystack_name"
                dis := strField p "dis"
                value := v
                units := strField p "units"
                quality := strField p "quality"
                metadata := some (p.filter (fun kv => !(fixedKeys.contains kv.1))) }

/-! ### Monitoring route (`frontend/src/app/api/monitoring/route.ts`)

The GET handler first runs `countSql`
(`SELECT COUNT(DISTINCT haystack_name) ... WHERE <filters>`) and then
`dataSql` (`SELECT DISTINCT ON (haystack_name) time, haystack_name, dis,
value, units, device_id, device_name, quality ... ORDER BY haystack_name,
time DESC LIMIT $n OFFSET $m`).  Column references are resolved against the
columns that `sensor_readings` actually declares. -/

/-- The columns declared by `CREATE TABLE sensor_readings`
(`01_init_hypertable.sql`, lines 9-22). -/
def sensorReadingsColumns : List String :=
  ["time", "haystack_name", "dis", "value", "units", "quality", "metadata"]

/-- The select list of the monitoring route's `dataSql`
(`monitoring/route.ts`, lines 69-83). -/
def monitoringDataColumns : List String :=
  ["time", "haystack_name", "dis", "value", "units", "device_id", "device_name", "quality"]

/-- Column references of a select list that do not resolve against the
table's declared columns (Postgres rejects the query at the first one). -/
def unknownColumns (req : List String) : List String :=
  req.filter (fun c => !(sensorReadingsColumns.contains c))

/-- The `WHERE` filter shared by the monitoring queries: a lower time bound,
an optional upper time bound (present when the caller supplied explicit
`start`/`end`, absent in the `NOW() - INTERVAL` form) and an optional
`haystack_name = $k` filter. -/
def monitoringFilter (lo : Rat) (hi : Option Rat) (hay : Option String) (r : Row) : Bool :=
  decide (lo ≤ r.time) &&
    (match hi with
     | some h => decide (r.time ≤ h)
     | none => true) &&
    (match hay with
     | some n => r.haystack_name == some n
     | none => true)

/-- `ORDER BY haystack_name, time DESC` with Postgres default `NULLS LAST`
for the ascending key. -/
def monRowLE (r1 r2 : Row) : Prop :=
  if r1.haystack_name = r2.haystack_name then r2.time ≤ r1.time
  else
    match r1.haystack_name, r2.haystack_name with
    | _, none => True
    | none, some _ => False
    | some a, some b => strLE a b

instance : DecidableRel monRowLE := by
  intro r1 r2
  unfold monRowLE
  split
  · exact inferInstance
  · rcases r1.haystack_name with _ | a <;> rcases r2.haystack_name with _ | b <;>
      simp <;> exact inferInstance

/-- `DISTINCT ON (haystack_name)`: keep the first row of each
`haystack_name` group of the sorted row list. -/
def distinctOnAux (seen : List (Option String)) : List Row → List Row
  | [] => []
  | r :: rs =>
      if seen.contains r.haystack_name then distinctOnAux seen rs
      else r :: distinctOnAux (r.haystack_name :: seen) rs

/-- The monitoring route's `dataSql`: resolve the select list, then compute
the latest row per point in the window with `LIMIT limit OFFSET offset`.
Resolution fails because `device_id` is not a column of `sensor_readings`. -/
def runMonitoringData (tbl : List Row) (lo : Rat) (hi : Option Rat) (hay : Option String)
    (limit offset : Nat) : Except String (List Row) :=
  match unknownColumns monitoringDataColumns with
  | c :: _ => .error ("column " ++ c ++ " does not exist")
  | [] =>
      .ok ((((distinctOnAux []
        (List.insertionSort monRowLE (tbl.filter (monitoringFilter lo hi hay)))).drop offset).take limit))

/-- The monitoring route's `countSql`: `COUNT(DISTINCT haystack_name)`
ignores SQL `NULL`s. -/
def countDistinctHaystack (tbl : List Row) (lo : Rat) (hi : Option Rat)
    (hay : Option String) : Nat :=
  (((tbl.filter (monitoringFilter lo hi hay)).filterMap (fun r => r.haystack_name)).dedup).length

/-- The JSON body of a successful monitoring GET. -/
structure MonitoringResponse where
  readings : List Row
  totalCount : Nat
  totalPages : Nat
deriving DecidableEq, Repr

/-- The monitoring GET handler: `countSql`, then `dataSql` with
`offset = (page - 1) * limit`, then
`totalPages = Math.ceil(totalCount / limit)`; any query error is caught and
surfaced as a failure response. -/
def runMonitoringGET (tbl : List Row) (lo : Rat) (hi : Option Rat) (hay : Option String)
    (page limit : Nat) : Except String MonitoringResponse := do
  let totalCount := countDistinctHaystack tbl lo hi hay
  let readings ← runMonitoringData tbl lo hi hay limit ((page - 1) * limit)
  .ok { readings := readings
        totalCount := totalCount
        totalPages := (totalCount + limit - 1) / limit }

/-! ### Export route (`frontend/src/app/api/export/route.ts`) -/

/-- The character test of `escapeCSV`: the value contains a comma, a double
quote or a newline. -/
def needsQuoting (s : String) : Bool :=
  s.data.any (fun c => c == ',' || c == '"' || c == '\n')

/-- `str.replace(/"/g, '""')`: double every double quote. -/
def doubleQuotes : List Char → List Char
  | [] => []
  | c :: cs => if c = '"' then '"' :: '"' :: doubleQuotes cs else c :: doubleQuotes cs

/-- `escapeCSV` (`export/route.ts`, lines 155-162): `null`/`undefined` become
the empty field; a value containing a comma, double quote or newline is
wrapped in double quotes with embedded quotes doubled; any other value is
emitted verbatim. -/
def escapeCSV : Option String → String
  | none => ""
  | some s =>
      if needsQuoting s then "\"" ++ String.mk (doubleQuotes s.data) ++ "\"" else s

/-- Inverse of quote doubling, on the inside of a quoted field. -/
def undoubleQuotes : List Char → List Char
  | [] => []
  | [c] => [c]
  | c1 :: c2 :: cs =>
      if c1 = '"' ∧ c2 = '"' then '"' :: undoubleQuotes cs
      else c1 :: undoubleQuotes (c2 :: cs)

/-- Standard CSV field decoding (RFC 4180): a field wrapped in double quotes
is stripped of them and embedded doubled quotes are undoubled; any other
field stands for itself. -/
def decodeCSVField (f : String) : String :=
  match f.data with
  | '"' :: rest =>
      match rest.getLast? with
      | some '"' => String.mk (undoubleQuotes rest.dropLast)
      | _ => f
  | _ => f

/-- The `WHERE` filter of the export query: lower time bound, optional upper
time bound, optional `haystack_name = $k`. -/
def exportFilter (lo : Rat) (hi : Option Rat) (hay : Option String) (r : Row) : Bool :=
  decide (lo ≤ r.time) &&
    (match hi with
     | some h => decide (r.time ≤ h)
     | none => true) &&
    (match hay with
     | some n => r.haystack_name == some n
     | none => true)

/-- `LIMIT 100000` of the export query. -/
def exportLimit : Nat := 100000

/-- `ORDER BY time DESC`. -/
def timeDescOrder (r1 r2 : Row) : Prop := r2.time ≤ r1.time

instance : DecidableRel timeDescOrder := fun r1 r2 => by
  unfold timeDescOrder; exact inferInstance

/-- The export query before the `LIMIT`: matching rows by time descending. -/
def exportSelect (tbl : List Row) (lo : Rat) (hi : Option Rat) (hay : Option String) :
    List Row :=
  List.insertionSort timeDescOrder (tbl.filter (exportFilter lo hi hay))

/-- The rows fetched by the export route: the export query capped at
`LIMIT 100000`.  Both the CSV and the JSON branch render exactly this list. -/
def exportRows (tbl : List Row) (lo : Rat) (hi : Option Rat) (hay : Option String) :
    List Row :=
  (exportSelect tbl lo hi hay).take exportLimit

/-- The metadata keys of one reading (`Object.keys(reading.metadata)`,
skipped when the column is SQL `NULL`). -/
def metadataKeys (r : Row) : List String := (r.metadata.getD []).map (fun kv => kv.1)

/-- All metadata keys over the fetched readings, first occurrence kept
(JavaScript `Set` insertion order). -/
def allMetadataKeys (rows : List Row) : List String :=
  (rows.flatMap metadataKeys).dedup

/-- `Array.from(metadataKeys).sort()`: the distinct metadata keys in
lexicographic order. -/
def sortedMetadataKeys (rows : List Row) : List String :=
  List.insertionSort strLE (allMetadataKeys rows)

/-- The six fixed CSV header columns. -/
def csvFixedHeaders : List String :=
  ["time", "haystack_name", "display_name", "value", "units", "quality"]

/-- The CSV header row: fixed columns followed by the sorted metadata keys. -/
def csvHeader (rows : List Row) : List String :=
  csvFixedHeaders ++ sortedMetadataKeys rows

/-- `new Date(reading.time).toISOString()` (rendering abstracted). -/
def timeToString (t : Rat) : String := toString t

/-- The raw `value` cell: JavaScript `Array.join` renders `null` as the empty
string and a number by its decimal spelling. -/
def valueField : Option Rat → String
  | none => ""
  | some q => toString q

/-- One dynamic-attribute cell: the reading's value under key `k`, escaped;
the empty field when the reading lacks the key or holds JSON `null`
(`val !== undefined && val !== null ? escapeCSV(String(val)) : ''`). -/
def metaField (r : Row) (k : String) : String :=
  match (r.metadata.getD []).find? (fun kv => kv.1 == k) with
  | some kv => if kv.2 = .null then "" else escapeCSV (some (jvalToString kv.2))
  | none => ""

/-- One CSV data row (`export/route.ts`, lines 120-134). -/
def csvRow (rows : List Row) (r : Row) : List String :=
  [timeToString r.time, escapeCSV r.haystack_name, escapeCSV r.dis, valueField r.value,
    escapeCSV r.units, escapeCSV r.quality] ++
    (sortedMetadataKeys rows).map (metaField r)

/-- All CSV lines: the header, then one row per reading. -/
def csvLines (rows : List Row) : List (List String) :=
  csvHeader rows :: rows.map (csvRow rows)

/-- The CSV document (`csvRows.join('\n')` of `row.join(',')`). -/
def csvContent (rows : List Row) : String :=
  String.intercalate "\n" ((csvLines rows).map (String.intercalate ","))

/-- The JSON branch: each reading flattened into fixed fields followed by its
metadata entries (`{time, ..., quality, ...metadata}`). -/
def jsonFlatten (r : Row) : List (String × JVal) :=
  [("time", JVal.str (timeToString r.time)),
   ("haystack_name", (r.haystack_name.map JVal.str).getD .null),
   ("dis", (r.dis.map JVal.str).getD .null),
   ("value", (r.value.map JVal.num).getD .null),
   ("units", (r.units.map JVal.str).getD .null),
   ("quality", (r.quality.map JVal.str).getD .null)] ++ r.metadata.getD []

/-- The JSON export body: the flattened fetched readings. -/
def jsonExport (tbl : List Row) (lo : Rat) (hi : Option Rat) (hay : Option String) :
    List (List (String × JVal)) :=
  (exportRows tbl lo hi hay).map jsonFlatten

/-! ### Delete route (`frontend/src/app/api/data/points/route.ts`) -/

/-- `haystack_name IN ($1, ..., $n)` under SQL three-valued logic: a `NULL`
name matches nothing. -/
def pointsPred (names : List String) (r : Row) : Bool :=
  match r.haystack_name with
  | some h => names.contains h
  | none => false

/-- `time >= $1 AND time <= $2`. -/
def rangePred (a b : Rat) (r : Row) : Bool :=
  decide (a ≤ r.time) && decide (r.time ≤ b)

/-- The GET preview's parsing of its `haystack_names` query parameter:
`searchParams.get('haystack_names')?.split(',').filter(Boolean)` — `none`
when the parameter is absent, otherwise the comma-split fragments with empty
fragments dropped. -/
def parseNames : Option String → Option (List String)
  | none => none
  | some raw => some (((raw.data.splitOn ',').map String.mk).filter (fun s => s ≠ ""))

/-- The delete-preview GET handler (`data/points/route.ts`, lines 57-92):
counts the rows the matching predicate selects, or rejects the request as
invalid. -/
def previewCount (tbl : List Row) (ty : String) (rawNames : Option String)
    (fm tn : Option Rat) : Except String Nat :=
  if ty = "points" then
    match parseNames rawNames with
    | some (n :: ns) => .ok ((tbl.filter (pointsPred (n :: ns))).length)
    | _ => .error "Invalid parameters"
  else if ty = "time_range" then
    match fm, tn with
    | some a, some b => .ok ((tbl.filter (rangePred a b)).length)
    | _, _ => .error "Invalid parameters"
  else if ty = "all" then .ok tbl.length
  else .error "Invalid parameters"

/-- The DELETE handler (`data/points/route.ts`, lines 95-126): removes the
rows the matching predicate selects (`TRUNCATE` for type `all`) and returns
the remaining table. -/
def deleteRows (tbl : List Row) (ty : String) (names : List String)
    (fm tn : Option Rat) : Except String (List Row) :=
  if ty = "points" then
    match names with
    | [] => .error "Invalid parameters"
    | _ => .ok (tbl.filter (fun r => !(pointsPred names r)))
  else if ty = "time_range" then
    match fm, tn with
    | some a, some b => .ok (tbl.filter (fun r => !(rangePred a b r)))
    | _, _ => .error "Invalid parameters"
  else if ty = "all" then .ok []
  else .error "Invalid parameters"

/-! ### Concrete data used by witnesses and counterexamples -/

/-- A payload whose quality token lies outside the enumerated set. -/
def pWeirdPayload : List (String × JVal) :=
  [("haystack_name", .str "ahu.temp"), ("units", .str "degC"),
   ("quality", .str "weird"), ("device_id", .num 12345)]

/-- The reading the translator produces from `pWeirdPayload` at arrival 7. -/
def rWeird : Row :=
  { time := 7, haystack_name := some "ahu.temp", dis := none, value := none,
    units := some "degC", quality := some "weird",
    metadata := some [("device_id", .num 12345)] }

/-- A valid reading used to exercise duplicate insertion. -/
def rDup : Row :=
  { time := 1, haystack_name := some "ahu.temp", dis := some "AHU Temp",
    value := some 21, units := some "degC", quality := some "good",
    metadata := some [] }

/-- A payload carrying only fixed-column keys. -/
def pFixedOnly : List (String × JVal) :=
  [("haystack_name", .str "ahu.temp"), ("dis", .str "AHU Temp"),
   ("value", .num 21), ("units", .str "degC"), ("quality", .str "good")]

/-- The reading `pFixedOnly` translates to at arrival 3. -/
def translateFixedOnlyResult : Row :=
  { time := 3, haystack_name := some "ahu.temp", dis := some "AHU Temp",
    value := some 21, units := some "degC", quality := some "good",
    metadata := some [] }

/-- A payload with an explicit numeric timestamp. -/
def pExplicitTime : List (String × JVal) :=
  [("time", .num 100), ("haystack_name", .str "ahu.temp"), ("device_id", .num 5)]

/-! ### Shared lemmas -/

/-- Successful translation, unfolded: the produced row is the fixed-field
split of the payload. -/
theorem translate_ok_iff (p : List (String × JVal)) (a : Rat) (r : Row) :
    translate (some p) a = .ok r ↔
    ∃ v, payloadValue p = .ok v ∧
      r = { time := (explicitTime p).getD a
            haystack_name := strField p "haystack_name"
            dis := strField p "dis"
            value := v
            units := strField p "units"
            quality := strField p "quality"
            metadata := some (p.filter (fun kv => !(fixedKeys.contains kv.1))) } := by
  cases hv : payloadValue p with
  | error e => simp [translate, hv]
  | ok v => simp [translate, hv, eq_comm]

/-! ### Claim C1 -/

/-- C1, counterexample: a reading whose quality token is `"weird"` (outside
the enumerated set) is produced by the translator with the token preserved,
but the store's `CHECK` constraint rejects the row at write time — the
reading is NOT stored, so the constraint is not advisory. -/
theorem quality_counterexample :
    translate (some pWeirdPayload) 7 = .ok rWeird ∧
    rWeird.quality = some "weird" ∧
    qualityCheckOk rWeird.quality = false ∧
    insertRow [] rWeird = .error "violates check constraint sensor_readings_quality_check" := by
  decide

/-- C1, amended: for every reading produced by the translator the quality
token is preserved as-is, even outside the set good/uncertain/bad, but the
store's `CHECK` constraint is a hard write-time gate: the insert appends the
row exactly when the quality is SQL `NULL` or in the enumerated set, and
rejects it otherwise. -/
theorem quality_token_gate (p : List (String × JVal)) (a : Rat) (r : Row) (tbl : List Row)
    (h : translate (some p) a = .ok r) :
    r.quality = strField p "quality" ∧
    (insertRow tbl r = .ok (tbl ++ [r]) ↔ qualityCheckOk r.quality = true) ∧
    (qualityCheckOk r.quality = false →
      insertRow tbl r = .error "violates check constraint sensor_readings_quality_check") := by
  obtain ⟨v, -, hr⟩ := (translate_ok_iff p a r).mp h
  refine ⟨by rw [hr], ?_, ?_⟩
  · by_cases hok : qualityCheckOk r.quality = true <;> simp [insertRow, hok]
  · intro hbad
    simp [insertRow, hbad]

/-- C1, witness: the amended statement evaluated on the out-of-set payload. -/
theorem quality_token_gate_witness :
    rWeird.quality = strField pWeirdPayload "quality" ∧
    (insertRow [] rWeird = .ok ([] ++ [rWeird]) ↔ qualityCheckOk rWeird.quality = true) ∧
    (qualityCheckOk rWeird.quality = false →
      insertRow [] rWeird = .error "violates check constraint sensor_readings_quality_check") :=
  quality_token_gate pWeirdPayload 7 rWeird [] (by decide)

/-! ### Claim C3 -/

/-- C3: the store enforces no uniqueness at write time — two readings with
equal `(time, haystack_name)` (each passing the only declared constraint)
are both appended, both remain in the table, and nothing is merged: the
table grows by exactly two rows. -/
theorem no_uniqueness_at_write (tbl : List Row) (r1 r2 : Row)
    (hteq : r1.time = r2.time) (hkeq : r1.haystack_name = r2.haystack_name)
    (h1 : qualityCheckOk r1.quality = true) (h2 : qualityCheckOk r2.quality = true) :
    (insertRow tbl r1).bind (fun t => insertRow t r2) = .ok (tbl ++ [r1, r2]) ∧
    r1 ∈ tbl ++ [r1, r2] ∧ r2 ∈ tbl ++ [r1, r2] ∧
    (tbl ++ [r1, r2]).length = tbl.length + 2 := by
  refine ⟨?_, by simp, by simp, by simp⟩
  simp [insertRow, h1, h2, Except.bind]

/-- C3, witness: the very same row inserted twice is kept twice. -/
theorem no_uniqueness_at_write_witness :
    ((insertRow [] rDup).bind (fun t => insertRow t rDup) = .ok ([] ++ [rDup, rDup]) ∧
      rDup ∈ [] ++ [rDup, rDup] ∧ rDup ∈ [] ++ [rDup, rDup] ∧
      ([] ++ [rDup, rDup]).length = List.length ([] : List Row) + 2) :=
  no_uniqueness_at_write [] rDup rDup rfl rfl (by decide) (by decide)

/-! ### Claims C6 and C7 (translator, modelled from the spec) -/

/-- C6: a payload carrying only fixed-column keys translates to a reading
whose dynamic-attribute bag is `some []` — the empty mapping, agreeing with
the store's column default — and never an absent (`NULL`) bag. -/
theorem fixed_only_payload_empty_bag (p : List (String × JVal)) (a : Rat) (r : Row)
    (hfix : ∀ kv ∈ p, kv.1 ∈ fixedKeys) (h : translate (some p) a = .ok r) :
    r.metadata = some [] ∧ r.metadata ≠ none ∧ metadataDefault = some [] := by
  obtain ⟨v, -, hr⟩ := (translate_ok_iff p a r).mp h
  have hnil : p.filter (fun kv => !(fixedKeys.contains kv.1)) = [] := by
    rw [List.filter_eq_nil_iff]
    intro kv hkv
    have hmem := hfix kv hkv
    simp [hmem]
  subst hr
  simp [hnil, metadataDefault]
  exact fun a b hab => hfix (a, b) hab

/-- C6, witness: a payload with only fixed fields, evaluated. -/
theorem fixed_only_payload_empty_bag_witness :
    (translateFixedOnlyResult.metadata = some [] ∧
      translateFixedOnlyResult.metadata ≠ none ∧ metadataDefault = some []) :=
  fixed_only_payload_empty_bag pFixedOnly 3 translateFixedOnlyResult
    (by decide) (by decide)

/-- C7: translation is idempotent — a payload with an explicit timestamp
translates to the same reading regardless of arrival time, and a payload
without one translates to readings equal in every field except the
arrival-stamped `time`. -/
theorem translate_idempotent (q : List (String × JVal)) (a1 a2 : Rat) :
    ((explicitTime q).isSome = true → translate (some q) a1 = translate (some q) a2) ∧
    (∀ r1 r2, translate (some q) a1 = .ok r1 → translate (some q) a2 = .ok r2 →
      r1.haystack_name = r2.haystack_name ∧ r1.dis = r2.dis ∧ r1.value = r2.value ∧
      r1.units = r2.units ∧ r1.quality = r2.quality ∧ r1.metadata = r2.metadata) := by
  constructor
  · intro hsome
    obtain ⟨t, ht⟩ := Option.isSome_iff_exists.mp hsome
    cases hv : payloadValue q <;> simp [translate, hv, Except.bind, ht]
  · intro r1 r2 h1 h2
    obtain ⟨v1, hv1, hr1⟩ := (translate_ok_iff q a1 r1).mp h1
    obtain ⟨v2, hv2, hr2⟩ := (translate_ok_iff q a2 r2).mp h2
    rw [hv1] at hv2
    cases hv2
    subst hr1; subst hr2
    simp

/-- C7, witness: a payload with an explicit timestamp, translated at two
different arrival times. -/
theorem translate_idempotent_witness :
    translate (some pExplicitTime) 1 = translate (some pExplicitTime) 2 :=
  (translate_idempotent pExplicitTime 1 2).1 (by decide)

/-! ### Claims C2 and C4 (monitoring route) -/

/-- A valid stored reading used to exercise the monitoring read-back. -/
def rRoundTrip : Row :=
  { time := 5, haystack_name := some "ahu.temp", dis := some "AHU Temp",
    value := some 21, units := some "degC", quality := some "good",
    metadata := some [("device_id", .num 12345)] }

/-- C2: the round trip through the "latest per point" query fails on any
stored reading: the monitoring `dataSql` references the columns `device_id`
and `device_name`, which `sensor_readings` does not declare, so the read-back
query errors instead of returning the row — and its select list does not even
include `metadata`, so the dynamic-attribute set could never be returned. -/
theorem monitoring_roundtrip_broken :
    insertRow [] rRoundTrip = .ok [rRoundTrip] ∧
    runMonitoringData [rRoundTrip] 0 none none 50 0 =
      .error "column device_id does not exist" ∧
    unknownColumns monitoringDataColumns = ["device_id", "device_name"] ∧
    monitoringDataColumns.contains "metadata" = false := by
  decide

/-- Two readings of the same point at different times, for the listing
claim. -/
def rPointEarly : Row :=
  { time := 1, haystack_name := some "p1", dis := none, value := some 10,
    units := none, quality := some "good", metadata := some [] }

/-- The later reading of the same point. -/
def rPointLate : Row :=
  { time := 2, haystack_name := some "p1", dis := none, value := some 11,
    units := none, quality := some "good", metadata := some [] }

/-- C4: the "latest reading per point" GET never returns its listing: the
`countSql` computes `COUNT(DISTINCT haystack_name)` (here 1), but the
`dataSql` that should produce the per-point latest rows references the
nonexistent columns `device_id`/`device_name`, so the whole handler fails
with a query error on any reachable state. -/
theorem monitoring_listing_broken :
    countDistinctHaystack [rPointEarly, rPointLate] 0 none none = 1 ∧
    runMonitoringGET [rPointEarly, rPointLate] 0 none none 1 50 =
      .error "column device_id does not exist" := by
  decide

/-! ### Claim C8 (delete preview vs DELETE) -/

/-- A reading whose point name contains a comma. -/
def rCommaName : Row :=
  { time := 1, haystack_name := some "a,b", dis := none, value := some 1,
    units := none, quality := some "good", metadata := some [] }

/-- C8, counterexample: the preview GET and the DELETE do not agree for every
name list — the GET receives the list comma-joined
(`String.intercalate "," ["a,b"] = "a,b"`) and re-splits it on commas, so for
the single-name list `["a,b"]` the preview counts 0 rows while the DELETE
removes 1. -/
theorem preview_delete_counterexample :
    String.intercalate "," ["a,b"] = "a,b" ∧
    parseNames (some "a,b") = some ["a", "b"] ∧
    previewCount [rCommaName] "points" (some "a,b") none none = .ok 0 ∧
    deleteRows [rCommaName] "points" ["a,b"] none none = .ok [] ∧
    ([rCommaName] : List Row).length = 1 := by
  decide

/-- C8, amended: whenever the GET's `haystack_names` parameter parses back
(split on commas, empty fragments dropped) to exactly the DELETE request's
non-empty name list — in particular for any non-empty comma-free names — the
preview count equals the number of rows the DELETE removes, and for
`time_range` requests with both bounds the equality is unconditional, both
handlers applying the same selection predicate to the same table state. -/
theorem preview_matches_delete (tbl : List Row) (raw : Option String) (names : List String)
    (hp : parseNames raw = some names) (hne : names ≠ []) (a b : Rat) :
    (∃ kept, deleteRows tbl "points" names none none = .ok kept ∧
      previewCount tbl "points" raw none none = .ok (tbl.length - kept.length)) ∧
    (∃ kept, deleteRows tbl "time_range" names (some a) (some b) = .ok kept ∧
      previewCount tbl "time_range" raw (some a) (some b) = .ok (tbl.length - kept.length)) := by
  obtain ⟨n, ns, rfl⟩ : ∃ n ns, names = n :: ns := by
    cases names with
    | nil => exact absurd rfl hne
    | cons n ns => exact ⟨n, ns, rfl⟩
  constructor
  · refine ⟨tbl.filter (fun r => !(pointsPred (n :: ns) r)), ?_, ?_⟩
    · simp [deleteRows]
    · have hlen := List.length_eq_length_filter_add (l := tbl) (pointsPred (n :: ns))
      simp [previewCount, hp]
      omega
  · refine ⟨tbl.filter (fun r => !(rangePred a b r)), ?_, ?_⟩
    · simp [deleteRows]
    · have hlen := List.length_eq_length_filter_add (l := tbl) (rangePred a b)
      simp [previewCount]
      omega

/-- C8, witness: a comma-free name and a time range, evaluated on a one-row
table. -/
theorem preview_matches_delete_witness :
    ((∃ kept, deleteRows [rDup] "points" ["ahu.temp"] none none = .ok kept ∧
      previewCount [rDup] "points" (some "ahu.temp") none none =
        .ok (([rDup] : List Row).length - kept.length)) ∧
     (∃ kept, deleteRows [rDup] "time_range" ["ahu.temp"] (some 0) (some 2) = .ok kept ∧
      previewCount [rDup] "time_range" (some "ahu.temp") (some 0) (some 2) =
        .ok (([rDup] : List Row).length - kept.length))) :=
  preview_matches_delete [rDup] (some "ahu.temp") ["ahu.temp"] (by decide) (by decide) 0 2

/-! ### Claim C9 (escapeCSV) -/

/-- Quote doubling never produces the empty list from a nonempty one. -/
theorem doubleQuotes_eq_nil {l : List Char} (h : doubleQuotes l = []) : l = [] := by
  cases l with
  | nil => rfl
  | cons c cs =>
    rw [doubleQuotes] at h
    split at h <;> simp at h

/-- Undoubling is a left inverse of quote doubling. -/
theorem undouble_double (l : List Char) : undoubleQuotes (doubleQuotes l) = l := by
  induction l with
  | nil => rfl
  | cons c cs ih =>
    by_cases hc : c = '"'
    · subst hc
      simp [doubleQuotes, undoubleQuotes, ih]
    · rw [doubleQuotes, if_neg hc]
      cases hdc : doubleQuotes cs with
      | nil =>
        have hcs : cs = [] := doubleQuotes_eq_nil hdc
        subst hcs
        simp [undoubleQuotes]
      | cons d ds =>
        rw [undoubleQuotes, if_neg (by simp [hc]), ← hdc, ih]

/-- Decoding a field emitted in the quoted form recovers the original. -/
theorem decode_quoted (s : String) :
    decodeCSVField ("\"" ++ String.mk (doubleQuotes s.data) ++ "\"") = s := by
  have hdata : ("\"" ++ String.mk (doubleQuotes s.data) ++ "\"").data =
      '"' :: (doubleQuotes s.data ++ ['"']) := by
    simp [String.data_append]
  rw [decodeCSVField, hdata]
  simp only [List.getLast?_concat, List.dropLast_concat, undouble_double]

/-- Decoding a field without a double quote leaves it unchanged. -/
theorem decode_unquoted (s : String) (hq : '"' ∉ s.data) : decodeCSVField s = s := by
  rw [decodeCSVField]
  split
  · rename_i rest heq
    refine absurd ?_ hq
    rw [heq]
    exact List.mem_cons_self _ _
  · rfl

/-- C9: the CSV field encoder is round-trip safe — `null`/`undefined` encode
to the empty field, a value is wrapped in double quotes with embedded quotes
doubled exactly when it contains a comma, a double quote or a newline, and
decoding the emitted field under standard CSV quoting rules recovers the
original string. -/
theorem escapeCSV_roundtrip (s : String) :
    escapeCSV none = "" ∧
    (needsQuoting s = true ↔ (',' ∈ s.data ∨ '"' ∈ s.data ∨ '\n' ∈ s.data)) ∧
    (needsQuoting s = true →
      escapeCSV (some s) = "\"" ++ String.mk (doubleQuotes s.data) ++ "\"") ∧
    (needsQuoting s = false → escapeCSV (some s) = s) ∧
    decodeCSVField (escapeCSV (some s)) = s := by
  have hiff : needsQuoting s = true ↔ (',' ∈ s.data ∨ '"' ∈ s.data ∨ '\n' ∈ s.data) := by
    simp only [needsQuoting, List.any_eq_true, Bool.or_eq_true, beq_iff_eq]
    constructor
    · rintro ⟨c, hc, (rfl | rfl) | rfl⟩
      · exact Or.inl hc
      · exact Or.inr (Or.inl hc)
      · exact Or.inr (Or.inr hc)
    · rintro (h | h | h)
      · exact ⟨',', h, Or.inl (Or.inl rfl)⟩
      · exact ⟨'"', h, Or.inl (Or.inr rfl)⟩
      · exact ⟨'\n', h, Or.inr rfl⟩
  refine ⟨rfl, hiff, ?_, ?_, ?_⟩
  · intro hq
    simp [escapeCSV, hq]
  · intro hq
    simp [escapeCSV, hq]
  · by_cases hq : needsQuoting s = true
    · rw [escapeCSV, if_pos hq]
      exact decode_quoted s
    · rw [escapeCSV, if_neg hq]
      refine decode_unquoted s (fun hmem => hq (hiff.mpr ?_))
      exact Or.inr (Or.inl hmem)

/-- C9, witness: a value containing all three special characters survives the
round trip. -/
theorem escapeCSV_roundtrip_witness :
    escapeCSV none = "" ∧
    (needsQuoting "a\",b\nc" = true ↔
      (',' ∈ ("a\",b\nc" : String).data ∨ '"' ∈ ("a\",b\nc" : String).data ∨
        '\n' ∈ ("a\",b\nc" : String).data)) ∧
    (needsQuoting "a\",b\nc" = true →
      escapeCSV (some "a\",b\nc") =
        "\"" ++ String.mk (doubleQuotes ("a\",b\nc" : String).data) ++ "\"") ∧
    (needsQuoting "a\",b\nc" = false → escapeCSV (some "a\",b\nc") = "a\",b\nc") ∧
    decodeCSVField (escapeCSV (some "a\",b\nc")) = "a\",b\nc" :=
  escapeCSV_roundtrip "a\",b\nc"

/-! ### Claim C10 (export cap) -/

instance : IsTotal Row timeDescOrder :=
  ⟨fun a b => (le_total b.time a.time).imp id id⟩

instance : IsTrans Row timeDescOrder :=
  ⟨fun _ _ _ h1 h2 => le_trans h2 h1⟩

/-- C10: every export request returns at most 100000 readings; each returned
reading matches the requested window and point filter and comes from the
table; the returned list is ordered by time descending; and any matching
reading that is omitted is no more recent than every returned one.  Both the
CSV and the JSON branch render exactly this list. -/
theorem export_capped (tbl : List Row) (lo : Rat) (hi : Option Rat) (hay : Option String) :
    (exportRows tbl lo hi hay).length ≤ 100000 ∧
    (∀ r ∈ exportRows tbl lo hi hay, exportFilter lo hi hay r = true ∧ r ∈ tbl) ∧
    (exportRows tbl lo hi hay).Sorted timeDescOrder ∧
    (∀ r ∈ tbl, exportFilter lo hi hay r = true → r ∉ exportRows tbl lo hi hay →
      ∀ x ∈ exportRows tbl lo hi hay, r.time ≤ x.time) ∧
    (jsonExport tbl lo hi hay).length = (exportRows tbl lo hi hay).length ∧
    csvLines (exportRows tbl lo hi hay) =
      csvHeader (exportRows tbl lo hi hay) ::
        (exportRows tbl lo hi hay).map (csvRow (exportRows tbl lo hi hay)) := by
  have hperm : List.Perm (exportSelect tbl lo hi hay) (tbl.filter (exportFilter lo hi hay)) :=
    List.perm_insertionSort timeDescOrder _
  have hsorted : (exportSelect tbl lo hi hay).Sorted timeDescOrder :=
    List.sorted_insertionSort timeDescOrder _
  refine ⟨?_, ?_, ?_, ?_, ?_, rfl⟩
  · exact le_trans (List.length_take_le _ _) (le_refl _)
  · intro r hr
    have hsel : r ∈ exportSelect tbl lo hi hay := List.mem_of_mem_take hr
    have hfil : r ∈ tbl.filter (exportFilter lo hi hay) := hperm.mem_iff.mp hsel
    exact ⟨List.of_mem_filter hfil, List.mem_of_mem_filter hfil⟩
  · exact List.Pairwise.sublist (List.take_sublist _ _) hsorted
  · intro r hr hfil hnot x hx
    have hsel : r ∈ exportSelect tbl lo hi hay :=
      hperm.mem_iff.mpr (List.mem_filter.mpr ⟨hr, hfil⟩)
    have hsplit : r ∈ (exportSelect tbl lo hi hay).take exportLimit ++
        (exportSelect tbl lo hi hay).drop exportLimit := by
      rw [List.take_append_drop]
      exact hsel
    have hdrop : r ∈ (exportSelect tbl lo hi hay).drop exportLimit := by
      rcases List.mem_append.mp hsplit with h | h
      · exact absurd h hnot
      · exact h
    exact hsorted.rel_of_mem_take_of_mem_drop hx hdrop
  · simp [jsonExport]

/-- C10, witness: the export of a one-row table. -/
theorem export_capped_witness :
    (exportRows [rRoundTrip] 0 none none).length ≤ 100000 ∧
    (∀ r ∈ exportRows [rRoundTrip] 0 none none,
      exportFilter 0 none none r = true ∧ r ∈ [rRoundTrip]) ∧
    (exportRows [rRoundTrip] 0 none none).Sorted timeDescOrder ∧
    (∀ r ∈ [rRoundTrip], exportFilter 0 none none r = true →
      r ∉ exportRows [rRoundTrip] 0 none none →
      ∀ x ∈ exportRows [rRoundTrip] 0 none none, r.time ≤ x.time) ∧
    (jsonExport [rRoundTrip] 0 none none).length =
      (exportRows [rRoundTrip] 0 none none).length ∧
    csvLines (exportRows [rRoundTrip] 0 none none) =
      csvHeader (exportRows [rRoundTrip] 0 none none) ::
        (exportRows [rRoundTrip] 0 none none).map
          (csvRow (exportRows [rRoundTrip] 0 none none)) :=
  export_capped [rRoundTrip] 0 none none

/-! ### Claim C5 (CSV flattening) -/

/-- The character-list order is total. -/
theorem charListLE_total :
    ∀ l1 l2 : List Char, charListLE l1 l2 = true ∨ charListLE l2 l1 = true := by
  intro l1
  induction l1 with
  | nil => intro l2; left; rfl
  | cons c1 cs1 ih =>
    intro l2
    cases l2 with
    | nil => right; rfl
    | cons c2 cs2 =>
      by_cases h : c1 = c2
      · subst h
        rcases ih cs2 with h1 | h1
        · left
          simpa [charListLE] using h1
        · right
          simpa [charListLE] using h1
      · rcases lt_or_gt_of_ne h with hlt | hgt
        · left
          simp [charListLE, h, hlt]
        · right
          simp [charListLE, Ne.symm h]
          exact hgt

/-- The character-list order is transitive. -/
theorem charListLE_trans :
    ∀ l1 l2 l3 : List Char, charListLE l1 l2 = true → charListLE l2 l3 = true →
      charListLE l1 l3 = true := by
  intro l1
  induction l1 with
  | nil => intro l2 l3 _ _; rfl
  | cons c1 cs1 ih =>
    intro l2 l3 h12 h23
    cases l2 with
    | nil => simp [charListLE] at h12
    | cons c2 cs2 =>
      cases l3 with
      | nil => simp [charListLE] at h23
      | cons c3 cs3 =>
        by_cases hab : c1 = c2 <;> by_cases hbc : c2 = c3
        · subst hab
          subst hbc
          simp only [charListLE, if_pos rfl] at h12 h23 ⊢
          exact ih cs2 cs3 h12 h23
        · subst hab
          simp only [charListLE, if_neg hbc] at h23
          simp only [charListLE, if_neg hbc]
          exact h23
        · subst hbc
          simp only [charListLE, if_neg hab] at h12
          simp only [charListLE, if_neg hab]
          exact h12
        · simp only [charListLE, if_neg hab, decide_eq_true_eq] at h12
          simp only [charListLE, if_neg hbc, decide_eq_true_eq] at h23
          have hac : c1 < c3 := lt_trans h12 h23
          simp only [charListLE, if_neg (ne_of_lt hac), decide_eq_true_eq]
          exact hac

instance : IsTotal String strLE :=
  ⟨fun a b => charListLE_total a.data b.data⟩

instance : IsTrans String strLE :=
  ⟨fun a b c h1 h2 => charListLE_trans a.data b.data c.data h1 h2⟩

/-- C5: the flattened CSV export — its header is the six fixed columns
followed by the sorted duplicate-free union of every dynamic-attribute key
appearing in any exported reading, and each data row carries, at the column
of key `k`, the reading's escaped attribute value under `k`, with an empty
field where the reading lacks the key. -/
theorem csv_export_flat (rows : List Row) :
    (sortedMetadataKeys rows).Sorted strLE ∧
    (sortedMetadataKeys rows).Nodup ∧
    (∀ k, k ∈ sortedMetadataKeys rows ↔ ∃ r ∈ rows, k ∈ metadataKeys r) ∧
    csvHeader rows = csvFixedHeaders ++ sortedMetadataKeys rows ∧
    (∀ r, (csvRow rows r).length = 6 + (sortedMetadataKeys rows).length) ∧
    (∀ r, ∀ i, ∀ hi : i < (sortedMetadataKeys rows).length,
      (csvRow rows r)[6 + i]? = some (metaField r ((sortedMetadataKeys rows)[i]))) ∧
    (∀ r k, (∀ v, (k, v) ∉ r.metadata.getD []) → metaField r k = "") ∧
    (∀ r k v, (r.metadata.getD []).find? (fun kv => kv.1 == k) = some (k, v) →
      v ≠ JVal.null → metaField r k = escapeCSV (some (jvalToString v))) := by
  have hperm : List.Perm (sortedMetadataKeys rows) (allMetadataKeys rows) :=
    List.perm_insertionSort strLE _
  refine ⟨?_, ?_, ?_, rfl, ?_, ?_, ?_, ?_⟩
  · exact List.sorted_insertionSort strLE _
  · exact hperm.symm.nodup (List.nodup_dedup _)
  · intro k
    rw [hperm.mem_iff, allMetadataKeys, List.mem_dedup, List.mem_flatMap]
  · intro r
    simp [csvRow]
    omega
  · intro r i hi
    rw [csvRow]
    rw [List.getElem?_append_right (by simp)]
    have h6 : 6 + i - ([timeToString r.time, escapeCSV r.haystack_name, escapeCSV r.dis,
        valueField r.value, escapeCSV r.units, escapeCSV r.quality]).length = i := by
      simp
    rw [h6, List.getElem?_map, List.getElem?_eq_getElem hi]
    rfl
  · intro r k hnone
    have hfind : (r.metadata.getD []).find? (fun kv => kv.1 == k) = none := by
      rw [List.find?_eq_none]
      intro kv hkv
      simp only [beq_iff_eq]
      intro hkeq
      apply hnone kv.2
      have heta : (kv.1, kv.2) = kv := rfl
      rw [hkeq] at heta
      rw [heta]
      exact hkv
    rw [metaField, hfind]
  · intro r k v hfind hnn
    rw [metaField, hfind]
    simp [hnn]

/-- A reading with two metadata keys, one value containing a comma. -/
def rCsvA : Row :=
  { time := 1, haystack_name := some "p", dis := some "P", value := some 2,
    units := some "u", quality := some "good",
    metadata := some [("b", .str "x,y"), ("a", .num 2)] }

/-- A reading sharing one key, carried with a JSON `null` value. -/
def rCsvB : Row :=
  { time := 2, haystack_name := some "q", dis := none, value := none,
    units := none, quality := none, metadata := some [("a", .null)] }

/-- The two-reading export used by the C5 witness. -/
def csvDemoRows : List Row := [rCsvA, rCsvB]

/-- C5, witness: the second metadata column of the first demo row is the
`metaField` cell of the second sorted key, and a key absent from the reading
yields the empty field. -/
theorem csv_export_flat_witness :
    (csvRow csvDemoRows rCsvA)[6 + 1]? =
      some (metaField rCsvA ((sortedMetadataKeys csvDemoRows).get ⟨1, by decide⟩)) ∧
    metaField rCsvA "zzz" = "" :=
  ⟨(csv_export_flat csvDemoRows).2.2.2.2.2.1 rCsvA 1 (by decide),
   (csv_export_flat csvDemoRows).2.2.2.2.2.2.1 rCsvA "zzz" (fun v => by simp [rCsvA])⟩

end StorageApp
